import Mathlib

/-
  Verification of the invoice/payment ledger core of the accounting-assistant
  application.

  The development shallowly embeds the TypeScript source:

  * `amountToDinero`, `dineroAdd`, `dineroSubtract`, `addAmounts` embed the
    money helpers (src/unnamed/part_004).  JavaScript `number` arithmetic in
    that pipeline is modelled faithfully on exact rationals represented as
    numerator/denominator pairs (`PosQ`): `toDoublePos` rounds an exact
    positive rational to the value of the nearest IEEE-754 binary64 number
    (round-to-nearest, ties-to-even; the exponent is unbounded, which agrees
    with binary64 on the normal range where every quantity of this
    application lives), `parseFloat` is exact-decimal-parse followed by that
    rounding, multiplication rounds the exact product the same way, and
    `Math.round` is the exact mathematical `⌊x + 1/2⌋` of the double's value,
    which is ECMAScript's round-half-toward-positive-infinity.

  * The Express route handlers POST /api/payments, PUT /api/payments/:id and
    DELETE /api/payments/:id (src/unnamed/part_006) are embedded as state
    transformers over a `LedgerState` holding the invoice and payment tables
    (`DatabaseStorage` of src/unnamed/part_007: `getInvoice`/`getPayment` are
    first-match lookups, `getPaymentsByInvoice` a filter, and updates map
    over the table).  Stored invoice/payment amounts are `decimal(10,2)`
    database columns (shared schema, src/unnamed/part_008); the handlers sum
    their `Number(...)` values in binary64 and compare the sums against
    `Number(invoice.amount)`.  Two embeddings of that arithmetic are used.
    The properties that do not depend on sub-cent rounding of the sums —
    guard structure of the status writes, idempotence, evaluations at
    whole-dollar inputs where binary64 arithmetic is exact, reductions with
    no threshold comparison, and 2-decimal renderings — are stated over
    exact integer cents (`ℤ`).  The one handler observation that is
    sensitive to binary64 rounding, the DELETE handler's
    `totalPaid < Number(invoice.amount)` threshold, is additionally embedded
    at full binary64 fidelity (`LedgerStateF`, `totalOfF`,
    `deletePaymentRouteF`): there a float sum can fall strictly below an
    amount that the exact cent sums tie with (in binary64,
    0.10 + 0.70 < 0.80), and the reopening claim is settled against that
    embedding.

  * The dashboard handler GET /api/dashboard (src/unnamed/part_006) and the
    client-side `calculateReportData` (reports-page.tsx) are embedded as
    pure functions; `Math.random()` in the report's simulated-expenses
    column is made explicit as a stream of sampled factors passed to the
    function, and `new Date()` as an explicit current month.  Calendar dates
    are modelled by their (year, month) pair, which is all the bucketing
    code observes (`getMonth()`/`getFullYear()` comparisons).
-/

/-! ## Exact positive rationals as raw pairs, and the binary64 value model -/

/-- An unreduced nonnegative rational `num / den`; every constructor below
keeps `den` positive. -/
structure PosQ where
  num : ℕ
  den : ℕ
deriving DecidableEq, Repr

/-- Round `a / b` (with `b > 0`) to the nearest natural number, ties to
even. -/
def rne (a b : ℕ) : ℕ :=
  let q := a / b
  let r := a % b
  if 2 * r < b then q
  else if b < 2 * r then q + 1
  else if q % 2 = 0 then q else q + 1

/-- Decide whether `n / d ≥ 2 ^ c` for naturals `n`, `d > 0` and an integer
exponent `c`. -/
def qGePow2 (n d : ℕ) (c : ℤ) : Bool :=
  if 0 ≤ c then d * 2 ^ c.toNat ≤ n else d ≤ n * 2 ^ (-c).toNat

/-- Base-2 logarithm by repeated halving, with an explicit fuel bound so the
recursion is structural. -/
def log2Aux : ℕ → ℕ → ℕ
  | 0, _ => 0
  | fuel + 1, n => if 2 ≤ n then log2Aux fuel (n / 2) + 1 else 0

/-- Floor of the base-2 logarithm of a positive natural.  The fuel 1100
covers every magnitude representable in binary64 (exponents below 1024). -/
def natLog2 (n : ℕ) : ℕ := log2Aux 1100 n

/-- Floor of the base-2 logarithm of the positive rational `n / d`. -/
def floorLog2 (n d : ℕ) : ℤ :=
  let c : ℤ := (natLog2 n : ℤ) - (natLog2 d : ℤ)
  if qGePow2 n d c then c else c - 1

/-- Round the positive rational `n / d` to the nearest multiple of `2 ^ e`,
ties to even, returning the multiplier. -/
def roundMantissa (n d : ℕ) (e : ℤ) : ℕ :=
  if 0 ≤ e then rne n (d * 2 ^ e.toNat) else rne (n * 2 ^ (-e).toNat) d

/-- The exact value of the IEEE-754 binary64 number nearest to the positive
rational `n / d` (53-bit mantissa, round-to-nearest, ties-to-even). -/
def toDoublePos (n d : ℕ) : PosQ :=
  let e := floorLog2 n d - 52
  let m := roundMantissa n d e
  if 0 ≤ e then ⟨m * 2 ^ e.toNat, 1⟩ else ⟨m, 2 ^ (-e).toNat⟩

/-- The binary64 value nearest to a nonnegative `PosQ`. -/
def toDouble (q : PosQ) : PosQ :=
  if q.num = 0 then ⟨0, 1⟩ else toDoublePos q.num q.den

/-- JavaScript double multiplication on nonnegative values: the exact
product rounded back to the nearest binary64 value. -/
def jsMul (x y : PosQ) : PosQ := toDouble ⟨x.num * y.num, x.den * y.den⟩

/-- JavaScript `Math.round` on a nonnegative double: the integer nearest to
the double's exact value, ties toward positive infinity, i.e.
`⌊x + 1/2⌋ = (2 num + den) / (2 den)`. -/
def jsRound (x : PosQ) : ℕ := (2 * x.num + x.den) / (2 * x.den)

/-! ## Decimal-literal parsing (`parseFloat` on the app's amount strings) -/

/-- Consume leading decimal digits, returning the accumulated value and the
rest of the input. -/
def parseIntPart : List Char → ℕ → ℕ × List Char
  | [], acc => (acc, [])
  | c :: rest, acc =>
    if c.isDigit then parseIntPart rest (acc * 10 + (c.toNat - 48))
    else (acc, c :: rest)

/-- Consume a run of decimal digits to the end of input, returning the
accumulated value and the number of digits; fails on a non-digit. -/
def parseFracPart : List Char → ℕ → ℕ → Option (ℕ × ℕ)
  | [], acc, len => some (acc, len)
  | c :: rest, acc, len =>
    if c.isDigit then parseFracPart rest (acc * 10 + (c.toNat - 48)) (len + 1)
    else none

/-- Exact rational value of a plain decimal literal `digits` or
`digits.digits` — the only shapes the application feeds to `parseFloat`. -/
def parseDecimal (s : String) : Option PosQ :=
  match parseIntPart s.toList 0 with
  | (n, []) => some ⟨n, 1⟩
  | (n, '.' :: rest) =>
    (parseFracPart rest 0 0).map fun p =>
      ⟨n * 10 ^ p.2 + p.1, 10 ^ p.2⟩
  | _ => none

/-- JavaScript `parseFloat` on a decimal literal: the binary64 value nearest
to the literal's exact decimal value. -/
def jsParseFloat (s : String) : Option PosQ := (parseDecimal s).map toDouble

/-! ## Money helpers (src/unnamed/part_004) -/

/-- A dinero.js value: an integer amount of minor units and a currency. -/
structure Dinero where
  amount : ℤ
  currency : String
deriving DecidableEq, Repr

inductive MoneyError where
  | currencyMismatch
deriving DecidableEq, Repr

/-- Embeds `amountToDinero` of src/unnamed/part_004: `parseFloat` the input,
multiply by 100 in double arithmetic, `Math.round` to minor units — and tag
the result with the imported `USD` currency object, ignoring the
`currencyCode` argument, exactly as the source does. -/
def amountToDinero (amount : String) (currencyCode : String) : Option Dinero :=
  (jsParseFloat amount).map fun numericAmount =>
    { amount := (jsRound (jsMul numericAmount ⟨100, 1⟩) : ℤ), currency := "USD" }

/-- The dinero.js `add`: fails when the currencies differ, otherwise adds
the minor-unit amounts. -/
def dineroAdd (d1 d2 : Dinero) : Except MoneyError Dinero :=
  if d1.currency = d2.currency then
    .ok { amount := d1.amount + d2.amount, currency := d1.currency }
  else .error .currencyMismatch

/-- The dinero.js `subtract`: fails when the currencies differ, otherwise
subtracts the minor-unit amounts. -/
def dineroSubtract (d1 d2 : Dinero) : Except MoneyError Dinero :=
  if d1.currency = d2.currency then
    .ok { amount := d1.amount - d2.amount, currency := d1.currency }
  else .error .currencyMismatch

/-- Embeds `addAmounts` of src/unnamed/part_004 up to decimal rendering:
both operands go through `amountToDinero` (with its default code) and the
dinero.js `add`. -/
def addAmounts (a1 a2 : String) : Option (Except MoneyError Dinero) := do
  let d1 ← amountToDinero a1 "USD"
  let d2 ← amountToDinero a2 "USD"
  pure (dineroAdd d1 d2)

/-- Specification-side conversion of a decimal-literal amount to minor
units, following the spec's words (§4.1 `fromDecimal`): round the exact
decimal value to the nearest minor unit, ties rounded half-up. -/
def specFromDecimalCents (s : String) : Option ℤ :=
  (parseDecimal s).map fun q => ((200 * q.num + q.den) / (2 * q.den) : ℕ)

/-! ## Ledger data model (shared schema, src/unnamed/part_008) -/

/-- Calendar position of a date: everything the bucketing and reconciliation
code observes of `date` columns (`getMonth()` is 0-based). -/
structure MonthDate where
  year : ℤ
  month : ℕ
deriving DecidableEq, Repr

/-- The `status` enum of the `invoices` table. -/
inductive InvoiceStatus where
  | pending
  | paid
  | overdue
deriving DecidableEq, Repr

/-- An `invoices` row, restricted to the columns the core logic reads.
`amount` is the `decimal(10,2)` column in minor units (cents). -/
structure Invoice where
  id : ℕ
  amount : ℤ
  date : MonthDate
  status : InvoiceStatus
deriving DecidableEq, Repr

/-- A `payments` row, restricted to the columns the core logic reads.
`amount` is the `decimal(10,2)` column in minor units (cents). -/
structure Payment where
  id : ℕ
  invoiceId : ℕ
  amount : ℤ
  date : MonthDate
deriving DecidableEq, Repr

/-- The database state the payment routes read and write: the `invoices`
and `payments` tables. -/
structure LedgerState where
  invoices : List Invoice
  payments : List Payment
deriving DecidableEq, Repr

/-! ## Storage accessors (`DatabaseStorage`, src/unnamed/part_007) -/

/-- Embeds `storage.getInvoice`: the row with the given id. -/
def getInvoice (s : LedgerState) (id : ℕ) : Option Invoice :=
  s.invoices.find? fun i => i.id == id

/-- Embeds `storage.getPayment`: the row with the given id. -/
def getPayment (s : LedgerState) (id : ℕ) : Option Payment :=
  s.payments.find? fun p => p.id == id

/-- Embeds `storage.getPaymentsByInvoice`: all payments referencing the
invoice. -/
def getPaymentsByInvoice (s : LedgerState) (invoiceId : ℕ) : List Payment :=
  s.payments.filter fun p => p.invoiceId == invoiceId

/-- Embeds `storage.updateInvoice(id, { status })`: persists the new status
and nothing else. -/
def updateInvoiceStatus (s : LedgerState) (id : ℕ) (status : InvoiceStatus) :
    LedgerState :=
  { s with
    invoices := s.invoices.map fun i =>
      if i.id == id then { i with status := status } else i }

/-- Status of the invoice with the given id, when it exists. -/
def statusOf (s : LedgerState) (id : ℕ) : Option InvoiceStatus :=
  (getInvoice s id).map Invoice.status

/-! ## Reconciliation passes and the payment routes (src/unnamed/part_006) -/

/-- Running total of a payment list, in exact cents.  The handlers compute
`reduce((sum, p) => sum + Number(p.amount), 0)` in binary64; this exact-cent
total is used only for the properties that are insensitive to sub-cent
rounding of that sum (status-guard structure, idempotence, whole-dollar
evaluations).  `totalOfF` is the binary64-accurate total used where the
rounding matters. -/
def totalOf (l : List Payment) : ℤ :=
  l.foldl (fun sum p => sum + p.amount) 0

/-- The status recomputation the POST /api/payments handler performs inline,
as a function of the invoice's current status and amount and of the payment
list whose total it takes: transition to `paid` when the total covers the
amount and the invoice is not already `paid`. -/
def createPassStatus (status : InvoiceStatus) (amount : ℤ) (l : List Payment) :
    InvoiceStatus :=
  if totalOf l ≥ amount ∧ status ≠ .paid then .paid else status

/-- The status recomputation the DELETE /api/payments/:id handler performs
inline: for a `paid` invoice whose remaining total no longer covers the
amount, transition back to `pending`. -/
def deletePassStatus (status : InvoiceStatus) (amount : ℤ) (l : List Payment) :
    InvoiceStatus :=
  if status = .paid ∧ totalOf l < amount then .pending else status

/-- Embeds the POST /api/payments handler (src/unnamed/part_006, lines
241-287), after authentication and input validation: look up the invoice
(404 → `none`, no write), insert the payment, re-read the invoice's payment
list — which now already contains the inserted row — and recompute the
status over that list with the fresh payment appended once more, exactly as
`[...invoicePayments, payment]` does in the source.  The status write
happens only when the recomputation changes the status, matching the
source's guarded `updateInvoice` call. -/
def createPaymentRoute (s : LedgerState) (payment : Payment) :
    Option LedgerState :=
  match getInvoice s payment.invoiceId with
  | none => none
  | some invoice =>
    let s1 : LedgerState := { s with payments := s.payments ++ [payment] }
    let invoicePayments := getPaymentsByInvoice s1 invoice.id
    let newStatus :=
      createPassStatus invoice.status invoice.amount (invoicePayments ++ [payment])
    some (if newStatus = invoice.status then s1
          else updateInvoiceStatus s1 invoice.id newStatus)

/-- Embeds the PUT /api/payments/:id handler (src/unnamed/part_006, lines
289-325) for an amount update: look up the payment (404 → `none`), write
the new amount — and nothing else: the handler performs no status
recomputation at all. -/
def updatePaymentRoute (s : LedgerState) (id : ℕ) (amount : ℤ) :
    Option LedgerState :=
  match getPayment s id with
  | none => none
  | some _ =>
    some { s with
           payments := s.payments.map fun p =>
             if p.id == id then { p with amount := amount } else p }

/-- Embeds the DELETE /api/payments/:id handler (src/unnamed/part_006, lines
327-364): look up the payment (404 → `none`), delete it, and if the parent
invoice exists and is `paid`, recompute the status over the remaining
payments, writing `pending` when the remaining total is below the amount. -/
def deletePaymentRoute (s : LedgerState) (id : ℕ) : Option LedgerState :=
  match getPayment s id with
  | none => none
  | some payment =>
    let s1 : LedgerState := { s with payments := s.payments.filter fun p => p.id != id }
    match getInvoice s1 payment.invoiceId with
    | none => some s1
    | some invoice =>
      let remainingPayments := getPaymentsByInvoice s1 invoice.id
      let newStatus := deletePassStatus invoice.status invoice.amount remainingPayments
      some (if newStatus = invoice.status then s1
            else updateInvoiceStatus s1 invoice.id newStatus)

/-- The three payment mutations of the API surface. -/
inductive PaymentOp where
  | create (payment : Payment)
  | updateAmount (id : ℕ) (amount : ℤ)
  | delete (id : ℕ)
deriving DecidableEq, Repr

/-- Dispatch a payment mutation to its route handler. -/
def applyOp (s : LedgerState) : PaymentOp → Option LedgerState
  | .create payment => createPaymentRoute s payment
  | .updateAmount id amount => updatePaymentRoute s id amount
  | .delete id => deletePaymentRoute s id

/-- Specification-side status derivation, following the spec's words (§4.4,
steps 1-3): sum the amounts of the invoice's payments; if the total covers
the invoice amount and the status is not `paid`, the status becomes `paid`;
if the total is below the amount and the status is `paid`, it becomes
`pending`; otherwise it is unchanged. -/
def specDerivedStatus (invoice : Invoice) (payments : List Payment) :
    InvoiceStatus :=
  let totalPaid := totalOf (payments.filter fun p => p.invoiceId == invoice.id)
  if totalPaid ≥ invoice.amount ∧ invoice.status ≠ .paid then .paid
  else if totalPaid < invoice.amount ∧ invoice.status = .paid then .pending
  else invoice.status

/-! ## Dashboard statistics (GET /api/dashboard, src/unnamed/part_006) -/

/-- The `stats` object of the dashboard response. -/
structure DashboardStats where
  totalRevenue : ℤ
  pendingInvoices : ℕ
  totalPayments : ℤ
  outstandingBalance : ℤ
deriving DecidableEq, Repr

/-- Embeds the GET /api/dashboard handler (src/unnamed/part_006, lines
573-606): plain reductions over the fetched invoice and payment lists,
recomputed per request. -/
def computeDashboardStats (invoices : List Invoice) (payments : List Payment) :
    DashboardStats :=
  let totalRevenue := invoices.foldl (fun sum inv => sum + inv.amount) 0
  let pendingInvoices := (invoices.filter fun inv => inv.status == .pending).length
  let totalPayments := payments.foldl (fun sum payment => sum + payment.amount) 0
  { totalRevenue := totalRevenue
    pendingInvoices := pendingInvoices
    totalPayments := totalPayments
    outstandingBalance := totalRevenue - totalPayments }

/-- Specification-side dashboard statistics, following the spec's words
(§4.5 item 5): `totalRevenue` is the sum of all invoice amounts,
`pendingInvoices` the count of invoices with status `pending`,
`totalPayments` the sum of all payment amounts, and `outstandingBalance`
their difference. -/
def specDashboardStats (invoices : List Invoice) (payments : List Payment) :
    DashboardStats :=
  { totalRevenue := (invoices.map Invoice.amount).sum
    pendingInvoices := invoices.countP fun inv => inv.status == .pending
    totalPayments := (payments.map Payment.amount).sum
    outstandingBalance :=
      (invoices.map Invoice.amount).sum - (payments.map Payment.amount).sum }

/-! ## Report buckets (`calculateReportData`, reports-page.tsx) -/

/-- One data point of the report charts; the three monetary fields are the
`toFixed(2)` strings the source pushes. -/
structure RevenuePoint where
  name : String
  revenue : String
  expenses : String
  payments : String
deriving DecidableEq, Repr

/-- Month names as in the source's `months` array. -/
def monthName (month : ℕ) : String :=
  (["Jan", "Feb", "Mar", "Apr", "May", "Jun",
    "Jul", "Aug", "Sep", "Oct", "Nov", "Dec"].getD month "")

/-- JavaScript `setMonth` arithmetic on a (year, month) pair: shift by a
number of months, normalizing month into 0-11. -/
def addMonths (d : MonthDate) (k : ℤ) : MonthDate :=
  let t : ℤ := d.year * 12 + d.month + k
  ⟨t.fdiv 12, (t.emod 12).toNat⟩

/-- Render an exact cent count the way `Number(x).toFixed(2)` renders the
corresponding 2-decimal value. -/
def centsToFixed2 (cents : ℤ) : String :=
  let sign := if cents < 0 then "-" else ""
  let a := cents.natAbs
  let frac := a % 100
  sign ++ toString (a / 100) ++ "." ++
    (if frac < 10 then "0" ++ toString frac else toString frac)

/-- Revenue of one monthly window, as the source computes it: filter the
invoices whose date falls in the window's month and year, and sum their
amounts. -/
def monthRevenue (invoices : List Invoice) (m : MonthDate) : ℤ :=
  ((invoices.filter fun inv => inv.date == m).foldl
    (fun sum inv => sum + inv.amount) 0)

/-- Payment total of one monthly window, as the source computes it. -/
def monthPaymentTotal (payments : List Payment) (m : MonthDate) : ℤ :=
  ((payments.filter fun p => p.date == m).foldl
    (fun sum p => sum + p.amount) 0)

/-- Simulated expenses of one window in cents: the source draws
`randomFactor = 0.6 + Math.random() * 0.2` and renders
`monthRevenue * randomFactor` at 2 decimals.  The sampled `Math.random()`
value is the exact rational `r`; the value rendered is the half-up cent
rounding `⌊revenue · (3/5 + r/5) + 1/2⌋` of the product (double rounding
error in the product is far below half a cent for represented magnitudes
and cannot move the 2-decimal rendering). -/
def simulatedExpensesCents (revenueCents : ℤ) (r : PosQ) : ℤ :=
  let factorNum : ℤ := 3 * r.den + r.num
  let factorDen : ℤ := 5 * r.den
  (2 * revenueCents * factorNum + factorDen).fdiv (2 * factorDen)

/-- Embeds `calculateReportData` (reports-page.tsx, lines 76-136): build one
data point per month for `monthsCount` consecutive months ending at the
current month, filtering invoices and payments into each window and
rendering revenue, simulated expenses, and payment totals at 2 decimals.
`rand` is the stream of `Math.random()` samples, one per window. -/
def calculateReportData (invoices : List Invoice) (payments : List Payment)
    (currentDate : MonthDate) (monthsCount : ℕ) (rand : ℕ → PosQ) :
    List RevenuePoint :=
  (List.range monthsCount).map fun i =>
    let monthDate := addMonths currentDate (Int.ofNat i + 1 - monthsCount)
    let revenue := monthRevenue invoices monthDate
    let paymentsTotal := monthPaymentTotal payments monthDate
    { name := monthName monthDate.month
      revenue := centsToFixed2 revenue
      expenses := centsToFixed2 (simulatedExpensesCents revenue (rand i))
      payments := centsToFixed2 paymentsTotal }

/-! ## Binary64-level embedding of the delete path -/

/-- JavaScript double addition on nonnegative values: the exact sum rounded
back to the nearest binary64 value. -/
def jsAdd (x y : PosQ) : PosQ :=
  toDouble ⟨x.num * y.den + y.num * x.den, x.den * y.den⟩

/-- Value comparison of two nonnegative doubles (each an exact rational). -/
def posQLt (x y : PosQ) : Prop := x.num * y.den < y.num * x.den

instance (x y : PosQ) : Decidable (posQLt x y) :=
  inferInstanceAs (Decidable (x.num * y.den < y.num * x.den))

/-- The binary64 value `Number(s)` of a stored 2-decimal amount column with
the given number of cents. -/
def jsNumberOfCents (cents : ℕ) : PosQ := toDouble ⟨cents, 100⟩

/-- An `invoices` row for the binary64-level embedding: `amount` is the
double `Number(row.amount)`. -/
structure InvoiceF where
  id : ℕ
  amount : PosQ
  status : InvoiceStatus
deriving DecidableEq, Repr

/-- A `payments` row for the binary64-level embedding: `amount` is the
double `Number(row.amount)`. -/
structure PaymentF where
  id : ℕ
  invoiceId : ℕ
  amount : PosQ
deriving DecidableEq, Repr

/-- The invoice and payment tables, amounts at binary64 fidelity. -/
structure LedgerStateF where
  invoices : List InvoiceF
  payments : List PaymentF
deriving DecidableEq, Repr

/-- Embeds `storage.getInvoice` over the binary64-level state. -/
def getInvoiceF (s : LedgerStateF) (id : ℕ) : Option InvoiceF :=
  s.invoices.find? fun i => i.id == id

/-- Embeds `storage.getPayment` over the binary64-level state. -/
def getPaymentF (s : LedgerStateF) (id : ℕ) : Option PaymentF :=
  s.payments.find? fun p => p.id == id

/-- Embeds `storage.getPaymentsByInvoice` over the binary64-level state. -/
def getPaymentsByInvoiceF (s : LedgerStateF) (invoiceId : ℕ) : List PaymentF :=
  s.payments.filter fun p => p.invoiceId == invoiceId

/-- Embeds `storage.updateInvoice(id, { status })` over the binary64-level
state. -/
def updateInvoiceStatusF (s : LedgerStateF) (id : ℕ) (status : InvoiceStatus) :
    LedgerStateF :=
  { s with
    invoices := s.invoices.map fun i =>
      if i.id == id then { i with status := status } else i }

/-- Status of the invoice with the given id in the binary64-level state. -/
def statusOfF (s : LedgerStateF) (id : ℕ) : Option InvoiceStatus :=
  (getInvoiceF s id).map InvoiceF.status

/-- The DELETE handler's running total at binary64 fidelity:
`reduce((sum, p) => sum + Number(p.amount), 0)` is a left fold of double
additions starting from the double 0. -/
def totalOfF (l : List PaymentF) : PosQ :=
  l.foldl (fun sum p => jsAdd sum p.amount) ⟨0, 1⟩

/-- The DELETE handler's inline status recomputation at binary64 fidelity:
reopen a `paid` invoice to `pending` when the double total of the remaining
payments is strictly below the double invoice amount. -/
def deletePassStatusF (status : InvoiceStatus) (amount : PosQ)
    (l : List PaymentF) : InvoiceStatus :=
  if status = .paid ∧ posQLt (totalOfF l) amount then .pending else status

/-- Embeds the DELETE /api/payments/:id handler (src/unnamed/part_006, lines
327-364) with the amount arithmetic at binary64 fidelity: look up the
payment (404 → `none`), delete it, and if the parent invoice exists and is
`paid`, recompute the status over the remaining payments with double sums
and the double comparison `totalPaid < Number(invoice.amount)`. -/
def deletePaymentRouteF (s : LedgerStateF) (id : ℕ) : Option LedgerStateF :=
  match getPaymentF s id with
  | none => none
  | some payment =>
    let s1 : LedgerStateF :=
      { s with payments := s.payments.filter fun p => p.id != id }
    match getInvoiceF s1 payment.invoiceId with
    | none => some s1
    | some invoice =>
      let remainingPayments := getPaymentsByInvoiceF s1 invoice.id
      let newStatus := deletePassStatusF invoice.status invoice.amount remainingPayments
      some (if newStatus = invoice.status then s1
            else updateInvoiceStatusF s1 invoice.id newStatus)

/-! ## Concrete scenario states -/

/-- Scenario A of the spec: a pending invoice of 100.00 with no payments. -/
def scenarioAState : LedgerState :=
  { invoices := [{ id := 1, amount := 10000, date := ⟨2024, 5⟩, status := .pending }],
    payments := [] }

/-- Scenario A's first payment: 60.00 against invoice 1. -/
def scenarioAPayment : Payment :=
  { id := 1, invoiceId := 1, amount := 6000, date := ⟨2024, 5⟩ }

/-- Scenario B of the spec: a paid invoice of 100.00 with one payment of
100.00. -/
def scenarioBState : LedgerState :=
  { invoices := [{ id := 1, amount := 10000, date := ⟨2024, 5⟩, status := .paid }],
    payments := [{ id := 1, invoiceId := 1, amount := 10000, date := ⟨2024, 5⟩ }] }

/-- Scenario B after deleting the payment: the payment set is empty and the
invoice is reopened to pending. -/
def scenarioBAfter : LedgerState :=
  { invoices := [{ id := 1, amount := 10000, date := ⟨2024, 5⟩, status := .pending }],
    payments := [] }

/-- A paid invoice of 100.00 with one payment of 100.00, used to probe the
payment-update route. -/
def updateScenarioState : LedgerState :=
  { invoices := [{ id := 1, amount := 10000, date := ⟨2024, 5⟩, status := .paid }],
    payments := [{ id := 1, invoiceId := 1, amount := 10000, date := ⟨2024, 5⟩ }] }

/-- The probe state after the payment's amount is updated to 10.00. -/
def updateScenarioAfter : LedgerState :=
  { invoices := [{ id := 1, amount := 10000, date := ⟨2024, 5⟩, status := .paid }],
    payments := [{ id := 1, invoiceId := 1, amount := 1000, date := ⟨2024, 5⟩ }] }

/-- An overdue invoice of 100.00 with one payment of 50.00, used to probe
the delete route's handling of overdue invoices. -/
def overdueScenarioState : LedgerState :=
  { invoices := [{ id := 1, amount := 10000, date := ⟨2024, 5⟩, status := .overdue }],
    payments := [{ id := 1, invoiceId := 1, amount := 5000, date := ⟨2024, 5⟩ }] }

/-- The overdue probe state after its payment is deleted: the status is
untouched. -/
def overdueScenarioAfter : LedgerState :=
  { invoices := [{ id := 1, amount := 10000, date := ⟨2024, 5⟩, status := .overdue }],
    payments := [] }

/-- Scenario E of the spec: three invoices dated in June 2024 (month index
5) with amounts 100.00, 250.50 and 49.50. -/
def scenarioEInvoices : List Invoice :=
  [{ id := 1, amount := 10000, date := ⟨2024, 5⟩, status := .pending },
   { id := 2, amount := 25050, date := ⟨2024, 5⟩, status := .pending },
   { id := 3, amount := 4950, date := ⟨2024, 5⟩, status := .pending }]

/-- A single June-2024 invoice of 100.00, used to exhibit the randomness of
the simulated-expenses column. -/
def randomProbeInvoices : List Invoice :=
  [{ id := 1, amount := 10000, date := ⟨2024, 5⟩, status := .pending }]

/-- Scenario B at binary64 fidelity: a paid invoice of 100.00 with one
payment of 100.00 (both doubles exact). -/
def scenarioBStateF : LedgerStateF :=
  { invoices := [{ id := 1, amount := jsNumberOfCents 10000, status := .paid }],
    payments := [{ id := 1, invoiceId := 1, amount := jsNumberOfCents 10000 }] }

/-- Scenario B at binary64 fidelity after deleting the payment. -/
def scenarioBAfterF : LedgerStateF :=
  { invoices := [{ id := 1, amount := jsNumberOfCents 10000, status := .pending }],
    payments := [] }

/-- A paid invoice of 0.80 with payments of 0.10, 0.70 and 5.00: deleting
the 5.00 payment leaves remaining payments whose exact sum ties the invoice
amount while their binary64 sum falls strictly below it. -/
def floatTieState : LedgerStateF :=
  { invoices := [{ id := 1, amount := jsNumberOfCents 80, status := .paid }],
    payments := [{ id := 1, invoiceId := 1, amount := jsNumberOfCents 10 },
                 { id := 2, invoiceId := 1, amount := jsNumberOfCents 70 },
                 { id := 3, invoiceId := 1, amount := jsNumberOfCents 500 }] }

/-! ## Helper lemmas -/

/-- Folding addition of a projection over a list equals the starting value
plus the sum of the projected values. -/
theorem foldl_add_eq {α : Type} (f : α → ℤ) (l : List α) (a : ℤ) :
    l.foldl (fun sum x => sum + f x) a = a + (l.map f).sum := by
  induction l generalizing a with
  | nil => simp
  | cons x xs ih => simp [ih, add_assoc]

/-- The handler's running total of a payment list is the sum of its
amounts. -/
theorem totalOf_eq_sum (l : List Payment) :
    totalOf l = (l.map Payment.amount).sum := by
  simpa using foldl_add_eq Payment.amount l 0

/-- Status lookup after `updateInvoiceStatus`: the looked-up invoice's
status is rewritten exactly when its id matches the updated one. -/
theorem statusOf_updateInvoiceStatus (s : LedgerState) (j : ℕ)
    (st : InvoiceStatus) (i : ℕ) :
    statusOf (updateInvoiceStatus s j st) i
      = (getInvoice s i).map fun inv => if inv.id = j then st else inv.status := by
  unfold statusOf getInvoice updateInvoiceStatus
  obtain ⟨invs, pays⟩ := s
  induction invs with
  | nil => rfl
  | cons x xs ih =>
    simp only [List.map_cons, beq_iff_eq]
    by_cases hj : x.id = j
    · by_cases hi : x.id = i
      · subst hj; subst hi
        rw [if_pos rfl, List.find?_cons_of_pos _ (by simp),
          List.find?_cons_of_pos _ (by simp)]
        simp
      · rw [if_pos hj,
          List.find?_cons_of_neg _ (by simp [hi]),
          List.find?_cons_of_neg _ (by simp [hi])]
        simpa using ih
    · by_cases hi : x.id = i
      · subst hi
        rw [if_neg hj, List.find?_cons_of_pos _ (by simp),
          List.find?_cons_of_pos _ (by simp)]
        simp [hj]
      · rw [if_neg hj,
          List.find?_cons_of_neg _ (by simp [hi]),
          List.find?_cons_of_neg _ (by simp [hi])]
        simpa using ih

/-- Status lookup after `updateInvoiceStatusF`, at binary64 fidelity: the
looked-up invoice's status is rewritten exactly when its id matches the
updated one. -/
theorem statusOfF_updateInvoiceStatusF (s : LedgerStateF) (j : ℕ)
    (st : InvoiceStatus) (i : ℕ) :
    statusOfF (updateInvoiceStatusF s j st) i
      = (getInvoiceF s i).map fun inv => if inv.id = j then st else inv.status := by
  unfold statusOfF getInvoiceF updateInvoiceStatusF
  obtain ⟨invs, pays⟩ := s
  induction invs with
  | nil => rfl
  | cons x xs ih =>
    simp only [List.map_cons, beq_iff_eq]
    by_cases hj : x.id = j
    · by_cases hi : x.id = i
      · subst hj; subst hi
        rw [if_pos rfl, List.find?_cons_of_pos _ (by simp),
          List.find?_cons_of_pos _ (by simp)]
        simp
      · rw [if_pos hj,
          List.find?_cons_of_neg _ (by simp [hi]),
          List.find?_cons_of_neg _ (by simp [hi])]
        simpa using ih
    · by_cases hi : x.id = i
      · subst hi
        rw [if_neg hj, List.find?_cons_of_pos _ (by simp),
          List.find?_cons_of_pos _ (by simp)]
        simp [hj]
      · rw [if_neg hj,
          List.find?_cons_of_neg _ (by simp [hi]),
          List.find?_cons_of_neg _ (by simp [hi])]
        simpa using ih

/-- C1: evaluation of the POST /api/payments handler at Scenario A.  The
claim says the handler computes `total_paid` as the sum of all payments of
the invoice, each counted once, so a first payment of 60.00 against a
pending invoice of 100.00 must leave the status `pending`.  The handler
however re-reads the payment list after the insert — the list already
contains the new payment — and appends the new payment once more, so it
sums 120.00 and marks the invoice `paid`; the specification-side derivation
over the true payment set yields `pending`. -/
theorem createPayment_scenarioA_doubleCount :
    (createPaymentRoute scenarioAState scenarioAPayment).map (fun s => statusOf s 1)
        = some (some .paid)
      ∧ (createPaymentRoute scenarioAState scenarioAPayment).map
          (fun s => specDerivedStatus
            { id := 1, amount := 10000, date := ⟨2024, 5⟩, status := .pending }
            s.payments)
        = some .pending := by
  constructor <;> decide

/-- C6: both reconciliation passes are idempotent — re-running the status
recomputation of the POST handler or of the DELETE handler on an unchanged
payment set returns the status the first run produced. -/
theorem reconciliationPasses_idempotent (status : InvoiceStatus) (amount : ℤ)
    (l : List Payment) :
    createPassStatus (createPassStatus status amount l) amount l
        = createPassStatus status amount l
      ∧ deletePassStatus (deletePassStatus status amount l) amount l
        = deletePassStatus status amount l := by
  refine ⟨?_, ?_⟩
  · unfold createPassStatus
    split_ifs <;> simp_all
  · unfold deletePassStatus
    split_ifs <;> simp_all

/-- C7 counterexample: `amountToDinero` does not always round the decimal
amount half-up to the nearest minor unit.  On "1.005" the binary64 value of
the parsed number times 100 is 100.49999999999998579..., so the code yields
100 minor units, while decimal round-half-up of 1.005 yields 101. -/
theorem fromDecimal_halfUp_cex :
    (amountToDinero "1.005" "USD").map Dinero.amount = some 100
      ∧ specFromDecimalCents "1.005" = some 101 := by
  constructor <;> decide

/-- C7 amended: conversion to minor units is the deterministic pure function
rounding the binary64 product `parseFloat(value) * 100` half-up; it agrees
with decimal round-half-up on "19.999" (2000 minor units) and on "10.005"
(1001 minor units, where the double of 10.005 lies just above the tie). -/
theorem fromDecimal_double_rounding :
    (amountToDinero "19.999" "USD").map Dinero.amount = some 2000
      ∧ (amountToDinero "10.005" "USD").map Dinero.amount = some 1001
      ∧ specFromDecimalCents "19.999" = some 2000
      ∧ specFromDecimalCents "10.005" = some 1001 := by
  refine ⟨by decide, by decide, by decide, by decide⟩

/-- C8: the dashboard statistics are exactly the spec's reductions over the
full invoice and payment lists: total revenue is the sum of all invoice
amounts, the pending count the number of invoices with status pending, the
payment total the sum of all payment amounts, and the outstanding balance
their difference. -/
theorem dashboardStats_are_reductions (invoices : List Invoice)
    (payments : List Payment) :
    computeDashboardStats invoices payments = specDashboardStats invoices payments := by
  unfold computeDashboardStats specDashboardStats
  simp [foldl_add_eq, List.countP_eq_length_filter]

/-- C3 counterexample: the PUT /api/payments/:id handler performs no
reconciliation.  Reducing the single 100.00 payment of a paid 100.00
invoice to 10.00 leaves the invoice `paid`, while the status-derivation
rule over the post-update payment set yields `pending`. -/
theorem updatePayment_noReconciliation_cex :
    (updatePaymentRoute updateScenarioState 1 1000).map (fun s => statusOf s 1)
        = some (some .paid)
      ∧ (updatePaymentRoute updateScenarioState 1 1000).map
          (fun s => specDerivedStatus
            { id := 1, amount := 10000, date := ⟨2024, 5⟩, status := .paid }
            s.payments)
        = some .pending := by
  constructor <;> decide

/-- C3 amended: a successful payment amount update writes only the payment
row and triggers no reconciliation pass at all — every invoice's status is
exactly what it was before the update, even when the derivation rule over
the post-update payment set would give a different status; only payment
create and delete recompute statuses. -/
theorem updatePayment_leaves_status_unchanged (s : LedgerState) (id : ℕ)
    (amount : ℤ) (s2 : LedgerState)
    (hrun : updatePaymentRoute s id amount = some s2) (i : ℕ) :
    statusOf s2 i = statusOf s i := by
  unfold updatePaymentRoute at hrun
  cases hp : getPayment s id with
  | none => rw [hp] at hrun; exact absurd hrun (by simp)
  | some payment =>
    rw [hp] at hrun
    cases hrun
    rfl

/-- C3 amended, witness: updating the payment of the concrete probe state
leaves the invoice `paid`. -/
theorem updatePayment_leaves_status_unchanged_witness :
    statusOf updateScenarioAfter 1 = statusOf updateScenarioState 1 :=
  updatePayment_leaves_status_unchanged updateScenarioState 1 1000
    updateScenarioAfter (by decide) 1

/-- C4 counterexample: adding or subtracting two Money amounts built with
different requested currencies does not fail with CurrencyMismatch — a
50.00 EUR amount and a 100.00 USD amount add to a numeric result, because
`amountToDinero` tags every amount with USD. -/
theorem mismatchedCurrency_add_succeeds_cex :
    ((amountToDinero "50.00" "EUR").bind fun d1 =>
        (amountToDinero "100.00" "USD").map fun d2 => dineroAdd d1 d2)
        = some (.ok { amount := 15000, currency := "USD" })
      ∧ ((amountToDinero "50.00" "EUR").bind fun d1 =>
          (amountToDinero "100.00" "USD").map fun d2 => dineroSubtract d1 d2)
        = some (.ok { amount := -5000, currency := "USD" }) := by
  constructor <;> rfl

/-- C4 amended: `amountToDinero` labels every constructed amount with the
USD currency object regardless of the requested currency code, so the
dinero.js add and subtract used by the money helpers never observe a
currency mismatch and always return a numeric result; no CurrencyMismatch
failure is possible on this path, and a payment meant to be 50.00 EUR is
processed as a plain 50.00 amount. -/
theorem money_ops_never_fail (a ca b cb : String) (d1 d2 : Dinero)
    (h1 : amountToDinero a ca = some d1) (h2 : amountToDinero b cb = some d2) :
    dineroAdd d1 d2 = .ok { amount := d1.amount + d2.amount, currency := "USD" }
      ∧ dineroSubtract d1 d2
        = .ok { amount := d1.amount - d2.amount, currency := "USD" } := by
  unfold amountToDinero at h1 h2
  rcases Option.map_eq_some'.mp h1 with ⟨v1, hv1, rfl⟩
  rcases Option.map_eq_some'.mp h2 with ⟨v2, hv2, rfl⟩
  exact ⟨rfl, rfl⟩

/-- C4 amended, witness: the 50.00-EUR and 100.00-USD amounts of Scenario D
add and subtract without failure. -/
theorem money_ops_never_fail_witness :
    dineroAdd { amount := 5000, currency := "USD" }
        { amount := 10000, currency := "USD" }
        = .ok { amount := 5000 + 10000, currency := "USD" }
      ∧ dineroSubtract { amount := 5000, currency := "USD" }
          { amount := 10000, currency := "USD" }
        = .ok { amount := 5000 - 10000, currency := "USD" } :=
  money_ops_never_fail "50.00" "EUR" "100.00" "USD"
    { amount := 5000, currency := "USD" } { amount := 10000, currency := "USD" }
    (by decide) (by decide)

/-- C9: bucketed revenue is additive — splitting the invoice list into two
parts splits every monthly window's revenue into the sum of the parts'
revenues — and Scenario E holds: for three June-2024 invoices of 100.00,
250.50 and 49.50, a six-month report ending June 2024 shows "400.00" as the
June bucket's revenue. -/
theorem monthRevenue_additive_and_scenarioE :
    (∀ (A B : List Invoice) (m : MonthDate),
        monthRevenue (A ++ B) m = monthRevenue A m + monthRevenue B m)
      ∧ (calculateReportData scenarioEInvoices [] ⟨2024, 5⟩ 6 fun _ => ⟨0, 1⟩).map
          RevenuePoint.revenue
        = ["0.00", "0.00", "0.00", "0.00", "0.00", "400.00"] := by
  constructor
  · intro A B m
    unfold monthRevenue
    rw [List.filter_append, foldl_add_eq, foldl_add_eq, foldl_add_eq,
      List.map_append, List.sum_append]
    ring
  · decide

/-- C10 counterexample: two runs of `calculateReportData` over identical
invoice and payment inputs differ when the ambient `Math.random()` samples
differ — with a June-2024 invoice of 100.00, samples 0 and 1/2 render the
June simulated-expenses cell as "60.00" and "70.00" respectively. -/
theorem report_random_expenses_cex :
    calculateReportData randomProbeInvoices [] ⟨2024, 5⟩ 6 (fun _ => ⟨0, 1⟩)
      ≠ calculateReportData randomProbeInvoices [] ⟨2024, 5⟩ 6 fun _ => ⟨1, 2⟩ := by
  decide

/-- C10 amended: `calculateReportData` mutates nothing and, apart from the
synthetic expenses column, is a pure function of the invoice and payment
sets: the name, revenue and payments fields of every bucket are identical
across runs whatever `Math.random()` returns; only the simulated-expenses
column depends on the sampled randomness. -/
theorem report_deterministic_outside_expenses (invoices : List Invoice)
    (payments : List Payment) (currentDate : MonthDate) (monthsCount : ℕ)
    (r1 r2 : ℕ → PosQ) :
    (calculateReportData invoices payments currentDate monthsCount r1).map
        (fun b => (b.name, b.revenue, b.payments))
      = (calculateReportData invoices payments currentDate monthsCount r2).map
        fun b => (b.name, b.revenue, b.payments) := by
  unfold calculateReportData
  rw [List.map_map, List.map_map]
  congr 1
/-- C2 counterexample: the reopening test is a binary64 comparison, not the
exact-decimal one the claim states.  Deleting the 5.00 payment of a paid
0.80 invoice with payments [0.10, 0.70, 5.00] reopens it to pending —
`Number("0.10") + Number("0.70")` is strictly below `Number("0.80")` in
binary64 — although the exact sum of the remaining amounts (80 cents) is
not strictly less than the invoice amount (80 cents), so the claim's iff
fails on the code at this input. -/
theorem deletePayment_reopens_despite_exact_tie :
    (deletePaymentRouteF floatTieState 3).map (fun s => statusOfF s 1)
        = some (some .pending)
      ∧ ¬ totalOf
          [{ id := 1, invoiceId := 1, amount := 10, date := ⟨2024, 5⟩ },
           { id := 2, invoiceId := 1, amount := 70, date := ⟨2024, 5⟩ }]
          < (80 : ℤ) := by
  constructor
  · set_option maxRecDepth 4000 in decide
  · decide

/-- C2 amended: deleting a payment of a paid invoice reopens it to pending
exactly when the binary64 total of the remaining payments — the handler's
`reduce` of double additions over `Number(p.amount)` — is strictly below
the binary64 value of the invoice amount.  This agrees with the exact
decimal comparison except where float representation error crosses the
boundary, as in the counterexample. -/
theorem deletePayment_reopens_iff_float (s : LedgerStateF) (id : ℕ)
    (payment : PaymentF) (invoice : InvoiceF) (s2 : LedgerStateF)
    (hp : getPaymentF s id = some payment)
    (hi : getInvoiceF s payment.invoiceId = some invoice)
    (hpaid : invoice.status = .paid)
    (hrun : deletePaymentRouteF s id = some s2) :
    statusOfF s2 invoice.id = some .pending
      ↔ posQLt (totalOfF (getPaymentsByInvoiceF s2 invoice.id)) invoice.amount := by
  have hinvid : invoice.id = payment.invoiceId := by
    unfold getInvoiceF at hi
    simpa using List.find?_some hi
  unfold deletePaymentRouteF at hrun
  rw [hp] at hrun
  dsimp only at hrun
  have hi1 : getInvoiceF
      { s with payments := s.payments.filter fun p => p.id != id }
      payment.invoiceId = some invoice := hi
  rw [hi1] at hrun
  dsimp only at hrun
  injection hrun with hrun
  by_cases hlt : posQLt
      (totalOfF (getPaymentsByInvoiceF
        { s with payments := s.payments.filter fun p => p.id != id } invoice.id))
      invoice.amount
  · have hns : deletePassStatusF invoice.status invoice.amount
        (getPaymentsByInvoiceF
          { s with payments := s.payments.filter fun p => p.id != id } invoice.id)
        = .pending := by
      unfold deletePassStatusF
      rw [if_pos ⟨hpaid, hlt⟩]
    rw [hns, hpaid] at hrun
    rw [if_neg (by simp)] at hrun
    subst hrun
    rw [statusOfF_updateInvoiceStatusF]
    have hgi : getInvoiceF
        { s with payments := s.payments.filter fun p => p.id != id }
        invoice.id = some invoice := by rw [hinvid]; exact hi
    rw [hgi]
    simpa using hlt
  · have hns : deletePassStatusF invoice.status invoice.amount
        (getPaymentsByInvoiceF
          { s with payments := s.payments.filter fun p => p.id != id } invoice.id)
        = invoice.status := by
      unfold deletePassStatusF
      rw [if_neg (by rintro ⟨h1, h2⟩; exact hlt h2)]
    rw [hns] at hrun
    rw [if_pos rfl] at hrun
    subst hrun
    have hgi : statusOfF
        { s with payments := s.payments.filter fun p => p.id != id }
        invoice.id = some .paid := by
      unfold statusOfF
      rw [show getInvoiceF
          { s with payments := s.payments.filter fun p => p.id != id }
          invoice.id = some invoice from by rw [hinvid]; exact hi]
      simp [hpaid]
    rw [hgi]
    simp [hlt]

/-- C2 amended, witness: Scenario B at binary64 fidelity — deleting the
single 100.00 payment of the paid 100.00 invoice reopens it to pending. -/
theorem deletePayment_reopens_iff_float_witness :
    deletePaymentRouteF scenarioBStateF 1 = some scenarioBAfterF
      ∧ statusOfF scenarioBAfterF 1 = some .pending := by
  refine ⟨by decide, ?_⟩
  have h := deletePayment_reopens_iff_float scenarioBStateF 1
    { id := 1, invoiceId := 1, amount := jsNumberOfCents 10000 }
    { id := 1, amount := jsNumberOfCents 10000, status := .paid }
    scenarioBAfterF (by decide) (by decide) rfl (by decide)
  exact h.mpr (by decide)

/-- C5: no payment mutation ever turns an overdue invoice into a pending
one — the reconciliation inlined in the create and delete handlers can only
leave an overdue status alone or, on the create path, promote it to paid. -/
theorem overdue_never_reopened (s : LedgerState) (op : PaymentOp)
    (s2 : LedgerState) (i : ℕ)
    (hrun : applyOp s op = some s2)
    (hov : statusOf s i = some .overdue) :
    statusOf s2 i = some .overdue ∨ statusOf s2 i = some .paid := by
  rcases Option.map_eq_some'.mp hov with ⟨inv0, hinv0, hst0⟩
  cases op with
  | create payment =>
    unfold applyOp createPaymentRoute at hrun
    dsimp only at hrun
    cases hinv : getInvoice s payment.invoiceId with
    | none => rw [hinv] at hrun; exact absurd hrun (by simp)
    | some invoice =>
      rw [hinv] at hrun
      dsimp only at hrun
      injection hrun with hrun
      by_cases hcond : createPassStatus invoice.status invoice.amount
          (getPaymentsByInvoice { s with payments := s.payments ++ [payment] }
              invoice.id
            ++ [payment])
          = invoice.status
      · rw [if_pos hcond] at hrun
        subst hrun
        left
        exact hov
      · rw [if_neg hcond] at hrun
        subst hrun
        have hns : createPassStatus invoice.status invoice.amount
            (getPaymentsByInvoice { s with payments := s.payments ++ [payment] }
                invoice.id
              ++ [payment])
            = .paid := by
          unfold createPassStatus at hcond ⊢
          split_ifs at hcond ⊢ <;> simp_all
        rw [statusOf_updateInvoiceStatus]
        rw [show getInvoice
            { s with payments := s.payments ++ [payment] } i = some inv0
          from hinv0]
        by_cases heq : inv0.id = invoice.id
        · right; simp [heq, hns]
        · left; simp [heq, hst0]
  | updateAmount id amount =>
    unfold applyOp updatePaymentRoute at hrun
    dsimp only at hrun
    cases hp : getPayment s id with
    | none => rw [hp] at hrun; exact absurd hrun (by simp)
    | some payment =>
      rw [hp] at hrun
      dsimp only at hrun
      injection hrun with hrun
      subst hrun
      left
      exact hov
  | delete id =>
    unfold applyOp deletePaymentRoute at hrun
    dsimp only at hrun
    cases hp : getPayment s id with
    | none => rw [hp] at hrun; exact absurd hrun (by simp)
    | some payment =>
      rw [hp] at hrun
      dsimp only at hrun
      cases hinv : getInvoice
          { s with payments := s.payments.filter fun p => p.id != id }
          payment.invoiceId with
      | none =>
        rw [hinv] at hrun
        dsimp only at hrun
        injection hrun with hrun
        subst hrun
        left
        exact hov
      | some invoice =>
        rw [hinv] at hrun
        dsimp only at hrun
        injection hrun with hrun
        by_cases hcond : deletePassStatus invoice.status invoice.amount
            (getPaymentsByInvoice
              { s with payments := s.payments.filter fun p => p.id != id }
              invoice.id)
            = invoice.status
        · rw [if_pos hcond] at hrun
          subst hrun
          left
          exact hov
        · rw [if_neg hcond] at hrun
          subst hrun
          have hc2 : invoice.status = .paid ∧
              totalOf (getPaymentsByInvoice
                { s with payments := s.payments.filter fun p => p.id != id }
                invoice.id)
              < invoice.amount := by
            by_contra hc
            exact hcond (by unfold deletePassStatus; rw [if_neg hc])
          have hns : deletePassStatus invoice.status invoice.amount
              (getPaymentsByInvoice
                { s with payments := s.payments.filter fun p => p.id != id }
                invoice.id)
              = .pending := by
            unfold deletePassStatus
            rw [if_pos hc2]
          rw [statusOf_updateInvoiceStatus]
          rw [show getInvoice
              { s with payments := s.payments.filter fun p => p.id != id } i
              = some inv0
            from hinv0]
          by_cases heq : inv0.id = invoice.id
          · exfalso
            have h1 : inv0.id = i := by
              unfold getInvoice at hinv0
              simpa using List.find?_some hinv0
            have h2 : invoice.id = payment.invoiceId := by
              unfold getInvoice at hinv
              simpa using List.find?_some hinv
            have h3 : getInvoice s payment.invoiceId = some invoice := hinv
            rw [← h2, ← heq, h1] at h3
            rw [hinv0] at h3
            injection h3 with h3
            rw [← h3] at hc2
            rw [hst0] at hc2
            exact absurd hc2.1 (by simp)
          · left; simp [heq, hst0]

/-- C5 witness: deleting the 50.00 payment of an overdue 100.00 invoice
leaves the invoice overdue (in particular, not pending). -/
theorem overdue_never_reopened_witness :
    statusOf overdueScenarioAfter 1 = some .overdue
      ∨ statusOf overdueScenarioAfter 1 = some .paid :=
  overdue_never_reopened overdueScenarioState (.delete 1) overdueScenarioAfter 1
    (by decide) (by decide)
